import Mathlib

/-!
Verification of the counterfactual-explanation scoring engine of
`webapp/backend` (pipeline_service.py, api/main.py, api/models.py).

Python scalar values are shallowly embedded as `PyVal` (floats as exact
rationals: none of the verified properties depends on binary rounding of the
concrete literals used, only on (in)equality and on comparisons far from the
representable-value boundary).  Python dictionaries are embedded as
association lists without duplicate keys; `lookupKey` is `dict.__getitem__`
resp. `dict.get`.
-/

namespace XaiWebapp

/-- Scalar value of a Python attribute record: int, float, str or None. -/
inductive PyVal where
  | vInt (n : Int)
  | vFloat (q : ℚ)
  | vStr (s : String)
  | vNone
deriving DecidableEq, Repr

/-- Numeric view of a value: Python treats int and float uniformly in `==`
and in `float(...)` conversions. -/
def PyVal.toRat? : PyVal → Option ℚ
  | .vInt n => some (n : ℚ)
  | .vFloat q => some q
  | _ => none

/-- Python `==` on scalar values: numerically across int/float, exact (and
type-sensitive) otherwise; `None` equals only `None`. -/
def pyEq (a b : PyVal) : Bool :=
  match a, b with
  | .vInt m, .vInt n => decide (m = n)
  | .vInt m, .vFloat q => decide ((m : ℚ) = q)
  | .vFloat q, .vInt n => decide (q = (n : ℚ))
  | .vFloat p, .vFloat q => decide (p = q)
  | .vStr s, .vStr t => decide (s = t)
  | .vNone, .vNone => true
  | _, _ => false

/-- A Python dict of scalars (an attribute record), as an association list. -/
abbrev Record := List (String × PyVal)

/-- First binding for a key (Python dicts are duplicate-free, so this is
`dict[k]` when present). -/
def lookupKey (r : Record) (k : String) : Option PyVal :=
  r.lookup k

/-- `dict.get(k)`: value when present, `None` otherwise. -/
def pyGet (r : Record) (k : String) : PyVal :=
  (lookupKey r k).getD .vNone

/-- The key list of a record. -/
def recKeys (r : Record) : List String :=
  r.map Prod.fst

/-- One changed feature: the factual and the counterfactual value. -/
structure FeatureChange where
  factual : PyVal
  counterfactual : PyVal
deriving DecidableEq, Repr

/-- `PipelineService._calculate_feature_changes`: for every key of either
record, record a change iff `factual.get(key) != counterfactual.get(key)`
under Python `!=` (no numeric tolerance is applied here).  The Python code
iterates over the key-set union; the embedding fixes the deduplicated
left-to-right order, which is irrelevant to every stated property. -/
def calculate_feature_changes (factual counterfactual : Record) :
    List (String × FeatureChange) :=
  let all_keys := (recKeys factual ++ recKeys counterfactual).dedup
  all_keys.filterMap fun key =>
    let factual_val := pyGet factual key
    let counterfactual_val := pyGet counterfactual key
    if pyEq factual_val counterfactual_val then none
    else some (key, ⟨factual_val, counterfactual_val⟩)

/-- The absolute tolerance `1e-9` of `_dicts_equal`. -/
def numTol : ℚ := 1 / 1000000000

/-- Value comparison of `PipelineService._dicts_equal`: both branches for
numeric pairs (float/float and the general int/float mix) compare
`abs(float(v1) - float(v2)) <= 1e-9`; any other pair falls back to Python
`==`. -/
def valEqTol (v1 v2 : PyVal) : Bool :=
  match v1.toRat?, v2.toRat? with
  | some a, some b => decide (|a - b| ≤ numTol)
  | _, _ => pyEq v1 v2

/-- `PipelineService._dicts_equal`: same key set, then every shared key's
values equal under the tolerant rule. -/
def dicts_equal (dict1 dict2 : Record) : Bool :=
  if (recKeys dict1).toFinset ≠ (recKeys dict2).toFinset then false
  else (recKeys dict1).all fun key => valEqTol (pyGet dict1 key) (pyGet dict2 key)

/-- Python `str.lower()` (the records here use ASCII keys). -/
def lowerStr (s : String) : String := ⟨s.data.map Char.toLower⟩

/-- The fixed ordered candidate list of `_extract_target_change`. -/
def target_names : List String :=
  ["target", "label", "prediction", "y",
   "Survived", "Income", "MedHouseVal",
   "income", "survived", "medhouseval"]

/-- The nonempty dict `{variable, factual, counterfactual}` returned by
`_extract_target_change`; `none` models its empty-dict return. -/
structure TargetChange where
  varName : String
  factual : PyVal
  counterfactual : PyVal
deriving DecidableEq, Repr

/-- First pass of `_extract_target_change`: exact key match in priority order;
a candidate present in both records with equal values is skipped. -/
def exactTargetPass (f c : Record) : List String → Option TargetChange
  | [] => none
  | t :: rest =>
    match lookupKey f t, lookupKey c t with
    | some fv, some cv =>
      if pyEq fv cv then exactTargetPass f c rest else some ⟨t, fv, cv⟩
    | _, _ => exactTargetPass f c rest

/-- The dict comprehension `{k.lower(): k for k in factual.keys()}` evaluated at one
lowered name: later insertions overwrite, so the surviving original key is the last
one with that lowercase form. -/
def lastKeyWithLower (ks : List String) (kl : String) : Option String :=
  (ks.filter fun k => lowerStr k == kl).getLast?

/-- Second pass of `_extract_target_change`: case-insensitive match against the
factual record's keys; the matched original key must also be present (exactly) in the
counterfactual record and the values must differ. -/
def ciTargetPass (f c : Record) : List String → Option TargetChange
  | [] => none
  | t :: rest =>
    match lastKeyWithLower (recKeys f) (lowerStr t) with
    | some orig =>
      match lookupKey f orig, lookupKey c orig with
      | some fv, some cv =>
        if pyEq fv cv then ciTargetPass f c rest else some ⟨orig, fv, cv⟩
      | _, _ => ciTargetPass f c rest
    | none => ciTargetPass f c rest

/-- `PipelineService._extract_target_change`: the exact pass over the whole candidate
list, then the case-insensitive pass. -/
def extract_target_change (factual counterfactual : Record) : Option TargetChange :=
  match exactTargetPass factual counterfactual target_names with
  | some tc => some tc
  | none => ciTargetPass factual counterfactual target_names

/-- Qualification test of the exact pass: candidate present in both records with
differing values. -/
def exactQual (f c : Record) (t : String) : Bool :=
  match lookupKey f t, lookupKey c t with
  | some fv, some cv => !(pyEq fv cv)
  | _, _ => false

/-- Qualification test of the case-insensitive pass. -/
def ciQual (f c : Record) (t : String) : Bool :=
  match lastKeyWithLower (recKeys f) (lowerStr t) with
  | some orig =>
    match lookupKey f orig, lookupKey c orig with
    | some fv, some cv => !(pyEq fv cv)
    | _, _ => false
  | none => false

/-- The change returned for an exact-pass hit. -/
def exactResult (f c : Record) (t : String) : TargetChange :=
  ⟨t, pyGet f t, pyGet c t⟩

/-- The change returned for a case-insensitive hit. -/
def ciResult (f c : Record) (t : String) : TargetChange :=
  let orig := (lastKeyWithLower (recKeys f) (lowerStr t)).getD t
  ⟨orig, pyGet f orig, pyGet c orig⟩

/-- A parsed JSON value (`json.loads` / `ast.literal_eval` result).  Floats are exact
rationals; `NaN`/`Infinity` literals are outside the modelled fragment. -/
inductive Json where
  | jNull
  | jBool (b : Bool)
  | jInt (n : Int)
  | jFloat (q : ℚ)
  | jStr (s : String)
  | jArr (xs : List Json)
  | jObj (fields : List (String × Json))

/-- A parsed JSON mapping (a Python dict). -/
abbrev JsonObj := List (String × Json)

/-- `dict.get` on a parsed mapping (first binding; parsed dicts are built
duplicate-free by `insertOverwrite`). -/
def jlookup (fields : JsonObj) (k : String) : Option Json :=
  fields.lookup k

/-- ASCII/whitespace test of Python `str.strip` / `str.isspace` / the regex `\s`
class. -/
def pyIsSpace (c : Char) : Bool :=
  [' ', '\t', '\n', '\r', '\x0b', '\x0c'].contains c

/-- Python `str.strip()`. -/
def stripStr (s : String) : String :=
  ⟨((s.data.dropWhile pyIsSpace).reverse.dropWhile pyIsSpace).reverse⟩

/-- Key normalisation `key.lower().strip()` used throughout `_compute_metrics`. -/
def normKey (s : String) : String :=
  stripStr (lowerStr s)

/-- Python dict assignment `d[k] = v`: replaces the binding in place when the key
exists, appends otherwise. -/
def insertOverwrite (d : JsonObj) (k : String) (v : Json) : JsonObj :=
  if d.any fun p => p.1 == k then d.map fun p => if p.1 == k then (k, v) else p
  else d ++ [(k, v)]

/-- Normalisation of the extracted `feature_changes` (lines 921-935 of
`_compute_metrics`): a list of single-key dicts or a dict, keys lower-cased and
stripped with later duplicates overwriting; any other shape yields the empty
mapping. -/
def normalizeFeatureChanges : Json → JsonObj
  | .jArr items =>
    items.foldl
      (fun d item =>
        match item with
        | .jObj fields => fields.foldl (fun d kv => insertOverwrite d (normKey kv.1) kv.2) d
        | _ => d)
      []
  | .jObj fields => fields.foldl (fun d kv => insertOverwrite d (normKey kv.1) kv.2) []
  | _ => []

/-- Python truthiness of a parsed JSON value. -/
def jsonTruthy : Json → Bool
  | .jNull => false
  | .jBool b => b
  | .jInt n => !(n == 0)
  | .jFloat q => !(q == 0)
  | .jStr s => !(s == "")
  | .jArr xs => !xs.isEmpty
  | .jObj fs => !fs.isEmpty

/-- `isinstance(x, dict)`. -/
def isJsonDict : Json → Bool
  | .jObj _ => true
  | _ => false

/-- Python `len` on the shapes it is applied to here. -/
def jsonLen : Json → Nat
  | .jStr s => s.length
  | .jArr xs => xs.length
  | .jObj fs => fs.length
  | _ => 0

/-- Banker's rounding (ties to even) of Python `round`, taken on the exact rational
value; the scores rounded here are small-denominator ratios of key counts, far from
any binary-float boundary effect. -/
def roundHalfEven (q : ℚ) : ℤ :=
  if q - ⌊q⌋ < 1/2 then ⌊q⌋
  else if 1/2 < q - ⌊q⌋ then ⌊q⌋ + 1
  else if Even ⌊q⌋ then ⌊q⌋ else ⌊q⌋ + 1

/-- Python `round(x, 3)`. -/
def round3 (q : ℚ) : ℚ :=
  (roundHalfEven (q * 1000) : ℚ) / 1000

/-- Python `str()` of a float.  Exact for integral values (`58.0`); the
shortest-round-trip decimal repr of other floats is not modelled, and no verified
property depends on it. -/
def floatStr (q : ℚ) : String :=
  if q.den = 1 then toString q.num ++ ".0"
  else toString q.num ++ "/" ++ toString q.den

/-- Python `str()` of a record scalar. -/
def pyValStr : PyVal → String
  | .vInt n => toString n
  | .vFloat q => floatStr q
  | .vStr s => s
  | .vNone => "None"

mutual
/-- Python `repr` of a parsed JSON value (string escaping is not modelled; no
verified property depends on it). -/
def jsonRepr : Json → String
  | .jNull => "None"
  | .jBool b => if b then "True" else "False"
  | .jInt n => toString n
  | .jFloat q => floatStr q
  | .jStr s => "'" ++ s ++ "'"
  | .jArr xs => "[" ++ jsonReprList xs ++ "]"
  | .jObj fs => "\x7b" ++ jsonReprFields fs ++ "\x7d"

/-- Comma-separated `repr` of list elements. -/
def jsonReprList : List Json → String
  | [] => ""
  | [x] => jsonRepr x
  | x :: xs => jsonRepr x ++ ", " ++ jsonReprList xs

/-- Comma-separated `repr` of dict entries. -/
def jsonReprFields : List (String × Json) → String
  | [] => ""
  | [(k, v)] => "'" ++ k ++ "': " ++ jsonRepr v
  | (k, v) :: fs => "'" ++ k ++ "': " ++ jsonRepr v ++ ", " ++ jsonReprFields fs
end

/-- Python `str()` of a parsed JSON value (same as `repr` except on strings). -/
def jsonStr : Json → String
  | .jStr s => s
  | v => jsonRepr v

/-- Readable observation of a parsed mapping, used to state concrete extraction
results. -/
def jsonReprObj (o : JsonObj) : String :=
  jsonRepr (.jObj o)

/-- Normalisation `str(x).strip()` followed by `.lower()` used by the `tf` metric. -/
def strNormTF (s : String) : String :=
  lowerStr (stripStr s)

/-- The metrics record (`api.models.MetricsResponse`). -/
structure MetricsResult where
  json_parsing_success : Bool
  pff : Bool
  tf : Bool
  avg_ff : Option ℚ
deriving DecidableEq, Repr

/-- Ground-truth key set of `_compute_metrics`: lower-cased stripped keys of the
full feature-change set. -/
def groundTruthKeys (gt : List (String × FeatureChange)) : Finset String :=
  (gt.map fun p => normKey p.1).toFinset

/-- Extracted key set of `_compute_metrics`: keys of the normalised
`feature_changes` mapping (default `[]` when absent). -/
def extractedKeys (pj : JsonObj) : Finset String :=
  ((normalizeFeatureChanges ((jlookup pj "feature_changes").getD (.jArr []))).map
    Prod.fst).toFinset

/-- The no-ground-truth-target branch of `tf` (line 1011):
`not parsed_target or not isinstance(parsed_target, dict) or len(parsed_target) == 0`
(short-circuit guarantees `len` is only reached on a dict). -/
def noTargetTF (parsed_target : Json) : Bool :=
  !(jsonTruthy parsed_target) || !(isJsonDict parsed_target) ||
    (jsonLen parsed_target == 0)

/-- The named-ground-truth-target branch of `tf` (lines 982-1008): the parsed
`target_variable_change` must be a non-empty dict whose stringified, stripped,
lower-cased `factual` and `counterfactual` entries (missing treated as `None`) equal
the ground truth's. -/
def targetMatchTF (gt : TargetChange) : Json → Bool
  | .jObj tfields =>
    if tfields.isEmpty then false
    else
      (strNormTF (pyValStr gt.factual) ==
          strNormTF (jsonStr ((jlookup tfields "factual").getD .jNull))) &&
        (strNormTF (pyValStr gt.counterfactual) ==
          strNormTF (jsonStr ((jlookup tfields "counterfactual").getD .jNull)))
  | _ => false

/-- The whole `tf` computation of `_compute_metrics` (lines 971-1013). -/
def tfValue (pj : JsonObj) (ground_truth_target : Option TargetChange) : Bool :=
  let parsed_target := (jlookup pj "target_variable_change").getD (.jObj [])
  match ground_truth_target with
  | some gt =>
    if gt.varName ≠ "" then targetMatchTF gt parsed_target
    else noTargetTF parsed_target
  | none => noTargetTF parsed_target

/-- `PipelineService._compute_metrics` (lines 888-1024).  `parsed_json` is the
extractor result (a mapping, or `None` on extraction failure); `ground_truth_changes`
comes from `_calculate_feature_changes` and `ground_truth_target` from
`_extract_target_change` (whose empty dict is `none`, and whose `variable` entry is
never the empty string, mirrored by the truthiness test on `varName`).  The
`factual`/`counterfactual` parameters are accepted and unused, as in the code. -/
def compute_metrics (parsed_json : Option JsonObj)
    (ground_truth_changes : List (String × FeatureChange))
    (ground_truth_target : Option TargetChange)
    (_factual _counterfactual : Record) : MetricsResult :=
  match parsed_json with
  | none => ⟨false, false, false, none⟩
  | some pj =>
    let ground_truth_keys := groundTruthKeys ground_truth_changes
    let parsed_keys := extractedKeys pj
    let pff_avg : Bool × ℚ :=
      if ground_truth_keys.card = 0 then
        (decide (parsed_keys.card = 0), if parsed_keys.card = 0 then 1 else 0)
      else
        let captured_features := ground_truth_keys ∩ parsed_keys
        (decide (captured_features = ground_truth_keys) &&
            decide (parsed_keys = ground_truth_keys),
          (captured_features.card : ℚ) / (ground_truth_keys.card : ℚ))
    ⟨true, pff_avg.1, tfValue pj ground_truth_target, some (round3 pff_avg.2)⟩

/-- JSON whitespace (also accepted by the literal parser). -/
def jsonWs (c : Char) : Bool :=
  [' ', '\t', '\n', '\r'].contains c

/-- Decimal digit test. -/
def isDigitChar (c : Char) : Bool :=
  c.isDigit

/-- Numeric value of a digit string. -/
def digitsToNat (ds : List Char) : Nat :=
  ds.foldl (fun acc c => acc * 10 + (c.toNat - '0'.toNat)) 0

/-- Hexadecimal digit value, via code points (48-57 digits, 97-102 and 65-70 the
two letter ranges). -/
def hexVal? (c : Char) : Option Nat :=
  let n := c.toNat
  if 48 ≤ n ∧ n ≤ 57 then some (n - 48)
  else if 97 ≤ n ∧ n ≤ 102 then some (n - 87)
  else if 65 ≤ n ∧ n ≤ 70 then some (n - 55)
  else none

/-- Escape sequences: the strict-JSON set, plus `\'` in the Python-literal
dialect. -/
def escapeChar? (py : Bool) (e : Char) : Option Char :=
  if e == '"' then some '"'
  else if e == '\\' then some '\\'
  else if e == '/' then some '/'
  else if e == 'b' then some '\x08'
  else if e == 'f' then some '\x0c'
  else if e == 'n' then some '\n'
  else if e == 'r' then some '\r'
  else if e == 't' then some '\t'
  else if py && e == '\'' then some '\''
  else none

/-- Body of a quoted string, after the opening quote; rejects unescaped control
characters and unterminated strings. -/
def parseStringBody (py : Bool) (quote : Char) :
    List Char → List Char → Option (String × List Char)
  | _, [] => none
  | acc, c :: rest =>
    if c == quote then some (⟨acc.reverse⟩, rest)
    else if c == '\\' then
      match rest with
      | [] => none
      | e :: rest2 =>
        if e == 'u' then
          match rest2 with
          | h1 :: h2 :: h3 :: h4 :: rest3 =>
            match hexVal? h1, hexVal? h2, hexVal? h3, hexVal? h4 with
            | some a, some b, some x, some d =>
              parseStringBody py quote
                (Char.ofNat (((a * 16 + b) * 16 + x) * 16 + d) :: acc) rest3
            | _, _, _, _ => none
          | _ => none
        else
          match escapeChar? py e with
          | some ec => parseStringBody py quote (ec :: acc) rest2
          | none => none
    else if c.toNat < 32 then none
    else parseStringBody py quote (c :: acc) rest

/-- Fraction part `.digits` of a number (value, presence, rest). -/
def parseFrac : List Char → Option (ℚ × Bool × List Char)
  | '.' :: cs =>
    let p := cs.span isDigitChar
    if p.1.isEmpty then none
    else some ((digitsToNat p.1 : ℚ) / (10 ^ p.1.length : ℚ), true, p.2)
  | cs => some (0, false, cs)

/-- Exponent part `[eE][+-]?digits` of a number (exponent, presence, rest). -/
def parseExpPart : List Char → Option (Int × Bool × List Char)
  | c :: cs =>
    if c == 'e' || c == 'E' then
      let sp : Bool × List Char :=
        match cs with
        | '+' :: r => (false, r)
        | '-' :: r => (true, r)
        | r => (false, r)
      let p := sp.2.span isDigitChar
      if p.1.isEmpty then none
      else some ((if sp.1 then -(digitsToNat p.1 : Int) else (digitsToNat p.1 : Int)),
        true, p.2)
    else some (0, false, c :: cs)
  | [] => some (0, false, [])

/-- Scales a magnitude by a decimal exponent. -/
def applyExp (q : ℚ) (e : Int) : ℚ :=
  if e < 0 then q / (10 ^ e.natAbs : ℚ) else q * (10 ^ e.natAbs : ℚ)

/-- JSON/Python number (sign already consumed): integer part without leading
zeros, optional fraction and exponent; an int result stays `jInt`, anything with a
fraction or exponent becomes `jFloat`. -/
def parseNumber (neg : Bool) (cs : List Char) : Option (Json × List Char) :=
  let ip := cs.span isDigitChar
  if ip.1.isEmpty then none
  else if decide (1 < ip.1.length) && (ip.1.headD '0' == '0') then none
  else
    match parseFrac ip.2 with
    | none => none
    | some (fv, hasFrac, rest2) =>
      match parseExpPart rest2 with
      | none => none
      | some (e, hasExp, rest3) =>
        if hasFrac || hasExp then
          let q := applyExp ((digitsToNat ip.1 : ℚ) + fv) e
          some (.jFloat (if neg then -q else q), rest3)
        else
          let n : Int := (digitsToNat ip.1 : Int)
          some (.jInt (if neg then -n else n), rest3)

/-- Strips an exact character prefix. -/
def stripPrefixChars : List Char → List Char → Option (List Char)
  | [], cs => some cs
  | _, [] => none
  | p :: ps, c :: cs => if p == c then stripPrefixChars ps cs else none

mutual
/-- Recursive-descent value parser; `py` selects the Python-literal dialect
(`ast.literal_eval`) over strict JSON (`json.loads`).  The fuel bounds the call
depth; each recursive call follows the consumption of at least one character, so
the initial fuel `length + 2` used below can never run out. -/
def parseValue (py : Bool) : Nat → List Char → Option (Json × List Char)
  | 0, _ => none
  | fuel + 1, cs =>
    match cs.dropWhile jsonWs with
    | [] => none
    | c :: rest =>
      if c == '"' then
        (parseStringBody py '"' [] rest).map fun p => (.jStr p.1, p.2)
      else if py && c == '\'' then
        (parseStringBody py '\'' [] rest).map fun p => (.jStr p.1, p.2)
      else if c == '\x7b' then parseObjBody py fuel [] true rest
      else if c == '[' then parseArrBody py fuel [] true rest
      else if c == '-' then parseNumber true rest
      else if py && c == '+' then parseNumber false rest
      else
        match stripPrefixChars (if py then "True".data else "true".data) (c :: rest) with
        | some r => some (.jBool true, r)
        | none =>
          match stripPrefixChars (if py then "False".data else "false".data) (c :: rest) with
          | some r => some (.jBool false, r)
          | none =>
            match stripPrefixChars (if py then "None".data else "null".data) (c :: rest) with
            | some r => some (.jNull, r)
            | none => parseNumber false (c :: rest)

/-- Object body after `{`; `canClose` says whether `}` may close here (at the
start, or after a comma in the Python dialect, which allows trailing commas). -/
def parseObjBody (py : Bool) : Nat → JsonObj → Bool → List Char → Option (Json × List Char)
  | 0, _, _, _ => none
  | fuel + 1, acc, canClose, cs =>
    match cs.dropWhile jsonWs with
    | [] => none
    | c :: rest =>
      if c == '\x7d' && canClose then some (.jObj acc, rest)
      else
        match
          (if c == '"' then parseStringBody py '"' [] rest
           else if py && c == '\'' then parseStringBody py '\'' [] rest
           else none) with
        | none => none
        | some (key, restK) =>
          match restK.dropWhile jsonWs with
          | ':' :: restC =>
            match parseValue py fuel restC with
            | none => none
            | some (v, restV) =>
              match restV.dropWhile jsonWs with
              | '\x7d' :: r => some (.jObj (insertOverwrite acc key v), r)
              | ',' :: r => parseObjBody py fuel (insertOverwrite acc key v) py r
              | _ => none
          | _ => none

/-- Array body after `[`; `canClose` as for objects. -/
def parseArrBody (py : Bool) : Nat → List Json → Bool → List Char → Option (Json × List Char)
  | 0, _, _, _ => none
  | fuel + 1, acc, canClose, cs =>
    match cs.dropWhile jsonWs with
    | [] => none
    | c :: rest =>
      if c == ']' && canClose then some (.jArr acc.reverse, rest)
      else
        match parseValue py fuel (c :: rest) with
        | none => none
        | some (v, restV) =>
          match restV.dropWhile jsonWs with
          | ']' :: r => some (.jArr (v :: acc).reverse, r)
          | ',' :: r => parseArrBody py fuel (v :: acc) py r
          | _ => none
end

/-- Models Python `json.loads` on the JSON fragment exercised here (`NaN` and
`Infinity` literals are outside the model and fail). -/
def jsonLoads (s : String) : Option Json :=
  match parseValue false (s.data.length + 2) s.data with
  | some (v, rest) => if (rest.dropWhile jsonWs).isEmpty then some v else none
  | none => none

/-- Models `ast.literal_eval` on the common literal fragment (single- or
double-quoted strings, numbers with sign, True/False/None, lists and dicts with
optional trailing commas); tuples, sets, complex numbers and prefixed strings are
outside the model and fail, like malformed input. -/
def literal_eval (s : String) : Option Json :=
  match parseValue true (s.data.length + 2) s.data with
  | some (v, rest) => if (rest.dropWhile jsonWs).isEmpty then some v else none
  | none => none

/-- `PipelineService._try_load_json_snippet`: strict JSON parse, then the
permissive literal parse; only mapping results are kept and every failure is
swallowed. -/
def try_load_json_snippet (snippet : String) : Option JsonObj :=
  match jsonLoads snippet with
  | some (.jObj fields) => some fields
  | _ =>
    match literal_eval snippet with
    | some (.jObj fields) => some fields
    | _ => none

/-- One attempt to match the regex ```` ```json\s*(\{.*?\})\s*``` ```` at the head
of the text: the literal tag, whitespace, an opening brace, then the non-greedy
scan keeps extending the capture to the next `}` until one is followed by
whitespace and a closing fence.  Returns the capture and the rest after the
match. -/
def matchFencedAt (cs : List Char) : Option (String × List Char) :=
  match stripPrefixChars "```json".data cs with
  | none => none
  | some afterTag =>
    match afterTag.dropWhile pyIsSpace with
    | '\x7b' :: body => fencedClose ['\x7b'] body
    | _ => none
where
  /-- Scans for the first `}` followed by `\s*` and a closing fence. -/
  fencedClose : List Char → List Char → Option (String × List Char)
    | _, [] => none
    | acc, c :: rest =>
      if c == '\x7d' then
        match stripPrefixChars "```".data (rest.dropWhile pyIsSpace) with
        | some afterFence => some (⟨(c :: acc).reverse⟩, afterFence)
        | none => fencedClose (c :: acc) rest
      else fencedClose (c :: acc) rest

/-- `re.findall` of the fenced pattern: non-overlapping matches, left to right,
resuming after each whole match; fuel `length` suffices since every step consumes
at least one character. -/
def findAllFenced : Nat → List Char → List String
  | 0, _ => []
  | _, [] => []
  | fuel + 1, c :: rest =>
    match matchFencedAt (c :: rest) with
    | some (capture, afterMatch) => capture :: findAllFenced fuel afterMatch
    | none => findAllFenced fuel rest

/-- The balanced-brace scan of `_parse_json_response` (lines 489-500): a stack of
opening braces; every time the stack empties at a closing brace, the span from the
matching opening brace is recorded (stripped).  A closing brace with an empty
stack is ignored. -/
def braceScan : List Char → List Char → List Char → List String → List String
  | [], _, _, acc => acc.reverse
  | c :: rest, stack, curr, acc =>
    if c == '\x7b' then
      braceScan rest ('\x7b' :: stack) (if stack.isEmpty then [c] else c :: curr) acc
    else if c == '\x7d' then
      match stack with
      | [] => braceScan rest [] curr acc
      | _ :: stack' =>
        if stack'.isEmpty then
          braceScan rest [] [] (stripStr ⟨(c :: curr).reverse⟩ :: acc)
        else braceScan rest stack' (c :: curr) acc
    else braceScan rest stack (if stack.isEmpty then curr else c :: curr) acc

/-- The candidate list of `_parse_json_response`: stripped non-empty fenced
captures in text order, then balanced-brace spans in text order. -/
def extractionCandidates (text : String) : List String :=
  ((findAllFenced text.data.length text.data).map stripStr).filter
      (fun s => !(s == "")) ++
    braceScan text.data [] [] []

/-- The four keys of the top selection tier. -/
def requiredKeys : List String :=
  ["feature_changes", "reasoning", "features_importance_ranking", "explanation"]

/-- Tier A: a candidate parsing to a mapping with all four required keys. -/
def tierA (cand : String) : Option JsonObj :=
  match try_load_json_snippet cand with
  | some parsed =>
    if requiredKeys.all fun k => (jlookup parsed k).isSome then some parsed else none
  | none => none

/-- Tier B: a candidate parsing to a mapping with at least `feature_changes`. -/
def tierB (cand : String) : Option JsonObj :=
  match try_load_json_snippet cand with
  | some parsed =>
    if (jlookup parsed "feature_changes").isSome then some parsed else none
  | none => none

/-- The selection rule as specified: each tier scans the reversed candidate list
(last collected candidate first), tier A before tier B before any parsed
mapping. -/
def tieredSelect (candidates : List String) : Option JsonObj :=
  (candidates.reverse.findSome? tierA).or
    ((candidates.reverse.findSome? tierB).or
      (candidates.reverse.findSome? try_load_json_snippet))

/-- `PipelineService._parse_json_response` (lines 472-522): empty text yields
none; otherwise fenced-capture and brace-span candidates are collected in text
order and the tiered reverse scans select the result. -/
def parse_json_response (text : String) : Option JsonObj :=
  if text == "" then none
  else
    let candidates := extractionCandidates text
    match candidates.reverse.findSome? tierA with
    | some parsed => some parsed
    | none =>
      match candidates.reverse.findSome? tierB with
      | some parsed => some parsed
      | none => candidates.reverse.findSome? try_load_json_snippet


/-- Conversion of record scalars into the JSON structure of the dummy output. -/
def pyValJson : PyVal → Json
  | .vInt n => .jInt n
  | .vFloat q => .jFloat q
  | .vStr s => .jStr s
  | .vNone => .jNull

/-- One feature change as the dummy JSON payload renders it. -/
def featureChangeJson (fc : FeatureChange) : Json :=
  .jObj [("factual", pyValJson fc.factual), ("counterfactual", pyValJson fc.counterfactual)]

/-- Indentation run. -/
def spaces (n : Nat) : String :=
  ⟨List.replicate n ' '⟩

/-- Double-quoted JSON string (escaping beyond the payloads used here is not
modelled; no verified property depends on the dumped text). -/
def dumpsStrLit (s : String) : String :=
  "\"" ++ s ++ "\""

mutual
/-- `json.dumps(..., indent=2)` at indentation level `ind`. -/
def jsonDumps (ind : Nat) : Json → String
  | .jNull => "null"
  | .jBool b => if b then "true" else "false"
  | .jInt n => toString n
  | .jFloat q => floatStr q
  | .jStr s => dumpsStrLit s
  | .jArr [] => "[]"
  | .jArr xs => "[\n" ++ jsonDumpsList ind xs ++ "\n" ++ spaces ind ++ "]"
  | .jObj [] => "\x7b\x7d"
  | .jObj fs => "\x7b\n" ++ jsonDumpsFields ind fs ++ "\n" ++ spaces ind ++ "\x7d"

/-- Dumped array elements, one per line. -/
def jsonDumpsList (ind : Nat) : List Json → String
  | [] => ""
  | [x] => spaces (ind + 2) ++ jsonDumps (ind + 2) x
  | x :: xs => spaces (ind + 2) ++ jsonDumps (ind + 2) x ++ ",\n" ++ jsonDumpsList ind xs

/-- Dumped object entries, one per line. -/
def jsonDumpsFields (ind : Nat) : List (String × Json) → String
  | [] => ""
  | [(k, v)] => spaces (ind + 2) ++ dumpsStrLit k ++ ": " ++ jsonDumps (ind + 2) v
  | (k, v) :: fs =>
    spaces (ind + 2) ++ dumpsStrLit k ++ ": " ++ jsonDumps (ind + 2) v ++ ",\n" ++
      jsonDumpsFields ind fs
end

/-- The fixed reasoning text of `_generate_dummy_explanation` (lines 648-656). -/
def dummyReasoningText : String :=
  "I need to analyze the differences between the factual and counterfactual examples. Let me identify the key feature changes:\n\n1. The first feature changed from its original value to a new value, which likely has a significant impact on the model's prediction.\n2. The second feature shows a numerical increase, suggesting a quantitative shift that could influence the outcome.\n3. The third feature represents a categorical change that may interact with other features.\n\nBased on these changes, I can see that the combination of modifications creates a shift in the model's decision boundary. The most influential change appears to be the first feature, as it represents a fundamental alteration in the input characteristics. The numerical increase in the second feature amplifies this effect, while the categorical change in the third feature provides additional context that supports the classification shift.\n\nThe interaction between these features suggests that the model's decision is not based on a single factor but rather on the combined effect of multiple feature modifications. This aligns with the complex nature of machine learning models that consider multiple dimensions simultaneously."

/-- The narrative text of `_generate_dummy_explanation` (lines 659-665), an
f-string over the first three feature names with fixed fallbacks. -/
def dummyNarrative (feature_names : List String) : String :=
  "The transition from the factual to the counterfactual instance reveals several key modifications that collectively influence the model's classification decision. The primary driver of this change appears to be the alteration in " ++
    feature_names.getD 0 "the primary feature" ++
    ", which shifted from its original state to a modified configuration. This fundamental change establishes the foundation for the subsequent classification shift.\n\nAccompanying this primary modification, the numerical adjustment in " ++
    feature_names.getD 1 "a secondary feature" ++
    " further reinforces the directional change in the model's prediction. The quantitative increase represents a meaningful shift that amplifies the impact of the primary feature modification. Additionally, the categorical transformation observed in " ++
    feature_names.getD 2 "another feature" ++
    " provides contextual support for the overall classification change.\n\nThe interaction between these modified features demonstrates the model's sensitivity to multi-dimensional changes. Rather than relying on a single factor, the classification outcome emerges from the combined effect of these interconnected modifications. This pattern highlights the complexity of the decision boundary and illustrates how seemingly independent feature changes can collectively produce a significant shift in the model's prediction.\n\nThe resulting classification change reflects the model's learned patterns that associate these specific feature combinations with the observed outcome. Understanding these relationships provides valuable insight into the model's decision-making process and the relative importance of different feature modifications in driving classification changes."

/-- The dummy fallback feature changes (lines 640-645), used when the two records
do not differ anywhere. -/
def dummyFallbackChanges : List (String × FeatureChange) :=
  [("feature_1", ⟨.vStr "value_A", .vStr "value_B"⟩),
   ("feature_2", ⟨.vInt 10, .vInt 15⟩),
   ("feature_3", ⟨.vStr "category_X", .vStr "category_Y"⟩)]

/-- The importance ranking of the dummy (lines 667-676): the first five feature
names, ranked "1","1","2","2","3". -/
def dummyRanking (feature_names : List String) : List (String × String) :=
  (feature_names.take 5).enum.map fun p =>
    (p.2, if p.1 < 2 then "1" else if p.1 < 4 then "2" else "3")

/-- One generated explanation record (the dict returned by the service layer;
`api.models.ExplainResponse` validates it at the route).  `explanation` and
`reasoning` carry whatever JSON value the parse produced, as in Python. -/
structure ExplainResult where
  explanation : Json
  raw_output : Option String
  parsed_json : Option JsonObj
  feature_changes : List (String × FeatureChange)
  target_variable_change : Option TargetChange
  reasoning : Option Json
  features_importance_ranking : Option (List (String × String))
  metrics : Option MetricsResult
  status : String
  warning : Option String

/-- `PipelineService._generate_dummy_explanation` (lines 624-729): ground-truth
changes are computed, empty ones replaced by the fixed fallback trio, the synthetic
narrative/reasoning/ranking and a raw output with a fenced JSON dump are assembled,
and the metrics are the fixed constants of lines 711-716 — not a
`_compute_metrics` result. -/
def generate_dummy_explanation (factual counterfactual : Record) : ExplainResult :=
  let feature_changes0 := calculate_feature_changes factual counterfactual
  let target_variable_change := extract_target_change factual counterfactual
  let feature_names :=
    if feature_changes0.isEmpty then ["feature_1", "feature_2", "feature_3"]
    else feature_changes0.map Prod.fst
  let feature_changes :=
    if feature_changes0.isEmpty then dummyFallbackChanges else feature_changes0
  let reasoning_text := dummyReasoningText
  let narrative_explanation := dummyNarrative feature_names
  let features_importance_ranking := dummyRanking feature_names
  let feature_changes_list : List Json :=
    feature_changes.map fun p => .jObj [(p.1, featureChangeJson p.2)]
  let target_var_change : Json :=
    match target_variable_change with
    | some tc => .jObj [("factual", pyValJson tc.factual),
        ("counterfactual", pyValJson tc.counterfactual)]
    | none => .jObj [("factual", .jStr "class_A"), ("counterfactual", .jStr "class_B")]
  let json_structure : JsonObj :=
    [("feature_changes", .jArr feature_changes_list),
     ("target_variable_change", target_var_change),
     ("reasoning", .jStr reasoning_text),
     ("features_importance_ranking",
       .jObj (features_importance_ranking.map fun p => (p.1, Json.jStr p.2))),
     ("explanation", .jStr narrative_explanation)]
  let raw_output := "<think>\n" ++ reasoning_text ++ "\n</think>\n```json\n" ++
    jsonDumps 0 (.jObj json_structure) ++ "\n```"
  { explanation := .jStr narrative_explanation
    raw_output := some raw_output
    parsed_json := some json_structure
    feature_changes := feature_changes
    target_variable_change := target_variable_change
    reasoning := some (.jStr reasoning_text)
    features_importance_ranking := some features_importance_ranking
    metrics := some ⟨true, true, true, some 1⟩
    status := "demo"
    warning := some "You need GPU CUDA to run models locally. This is just an output example." }

/-- The generation collaborator (vLLM with retries, or Gemini) abstracted to its
observable outcome: the raw completion text of the last attempt, or a
transport/inference error message. -/
def GenOracle := Except String String

/-- `PipelineService.generate_explanation` (lines 731-826): the demo branch returns
the synthetic record before any generation work; otherwise the collaborator text is
parsed with `_parse_json_response`, the diff-engine ground truth and
`_compute_metrics` results are attached with status "success", and a collaborator
failure surfaces as a request-level error message. -/
def generate_explanation (gen : GenOracle) (model : String)
    (factual counterfactual : Record) : Except String ExplainResult :=
  if model == "demo" then .ok (generate_dummy_explanation factual counterfactual)
  else
    match gen with
    | .error e => .error ("Error generating explanation: " ++ e)
    | .ok generated_text =>
      let parsed_json := parse_json_response generated_text
      let explanation : Json :=
        match parsed_json with
        | some pj =>
          if pj.isEmpty then .jStr generated_text
          else (jlookup pj "explanation").getD (.jStr generated_text)
        | none => .jStr generated_text
      let reasoning : Option Json :=
        match parsed_json with
        | some pj => if pj.isEmpty then none else jlookup pj "reasoning"
        | none => none
      let feature_changes := calculate_feature_changes factual counterfactual
      let target_variable_change := extract_target_change factual counterfactual
      let metrics := compute_metrics parsed_json feature_changes
        target_variable_change factual counterfactual
      .ok { explanation := explanation
            raw_output := some generated_text
            parsed_json := parsed_json
            feature_changes := feature_changes
            target_variable_change := target_variable_change
            reasoning := reasoning
            features_importance_ranking := none
            metrics := some metrics
            status := "success"
            warning := none }

/-- Event frames of the self-refinement stream (§6 wire format), at the
granularity the ordering claims are about: a draft_update carries its index and
terminal draft status, `complete` and `error` are the terminal frames. -/
inductive StreamEvent where
  | draft_update (index : Nat) (success : Bool)
  | complete
  | error (msg : String)
deriving DecidableEq, Repr

/-- The generation collaborator as the refinement orchestrator observes it:
whether it is available before any draft starts, and each draft's outcome. -/
structure RefinementOracle where
  available : Bool
  draftSucceeds : Nat → Bool

/-- Modelled from the spec: `generate_self_refinement` is invoked by
`explain_stream` (api/main.py lines 180-192) but its definition is not among the
sources; per §4.4, §6 and §7, drafts run sequentially for indices 0..N-1, one
`draft_update` is emitted as each draft reaches its terminal state (a failed draft
never aborts the batch), then exactly one `complete` event; when the whole batch
cannot proceed — the collaborator unavailable before any draft starts — a single
`error` event is the only output. -/
def generate_self_refinement (numDrafts : Nat) (gen : RefinementOracle) :
    List StreamEvent :=
  if gen.available then
    ((List.range numDrafts).map fun i => .draft_update i (gen.draftSucceeds i)) ++
      [.complete]
  else [.error "generation collaborator unavailable"]

/-- Modelled from the spec: `explain_stream` (api/main.py lines 177-212) forwards
every orchestrator event, in order, as one SSE frame. -/
def explain_stream_events (numDrafts : Nat) (gen : RefinementOracle) :
    List StreamEvent :=
  generate_self_refinement numDrafts gen

/-- Terminal events of the stream. -/
def isTerminal : StreamEvent → Bool
  | .complete => true
  | .error _ => true
  | .draft_update _ _ => false

/-- The draft indices of a stream, in emission order. -/
def draftIndices (evs : List StreamEvent) : List Nat :=
  evs.filterMap fun e =>
    match e with
    | .draft_update i _ => some i
    | _ => none

theorem pyEq_refl (v : PyVal) : pyEq v v = true := by
  cases v <;> simp [pyEq]

theorem pyEq_symm (a b : PyVal) : pyEq a b = pyEq b a := by
  cases a <;> cases b <;> simp [pyEq] <;> exact ⟨fun h => h.symm, fun h => h.symm⟩

theorem valEqTol_refl (v : PyVal) : valEqTol v v = true := by
  cases v <;> simp [valEqTol, PyVal.toRat?, pyEq, numTol]

theorem valEqTol_symm (a b : PyVal) : valEqTol a b = valEqTol b a := by
  unfold valEqTol
  cases ha : a.toRat? <;> cases hb : b.toRat? <;> simp [pyEq_symm]
  rw [abs_sub_comm]

theorem mem_calculate_feature_changes (f c : Record) (k : String) (ch : FeatureChange) :
    (k, ch) ∈ calculate_feature_changes f c ↔
      ((k ∈ recKeys f ∨ k ∈ recKeys c) ∧ pyEq (pyGet f k) (pyGet c k) = false ∧
        ch = ⟨pyGet f k, pyGet c k⟩) := by
  unfold calculate_feature_changes
  rw [List.mem_filterMap]
  constructor
  · rintro ⟨a, ha, hfa⟩
    by_cases hEq : pyEq (pyGet f a) (pyGet c a) = true
    · simp [hEq] at hfa
    · simp only [Bool.not_eq_true] at hEq
      simp only [hEq, Bool.false_eq_true, if_false, Option.some.injEq, Prod.mk.injEq] at hfa
      obtain ⟨rfl, rfl⟩ := hfa
      rw [List.mem_dedup, List.mem_append] at ha
      exact ⟨ha, hEq, rfl⟩
  · rintro ⟨hmem, hne, rfl⟩
    refine ⟨k, ?_, ?_⟩
    · rw [List.mem_dedup, List.mem_append]; exact hmem
    · simp [hne]

theorem calculate_feature_changes_self (a : Record) :
    calculate_feature_changes a a = [] := by
  unfold calculate_feature_changes
  rw [List.filterMap_eq_nil_iff]
  intro x _
  simp [pyEq_refl]

/-- Lookup in a duplicate-free association list is invariant under permutation. -/
theorem lookupKey_perm {l₁ l₂ : Record} (p : l₁.Perm l₂) :
    ∀ (_ : (recKeys l₁).Nodup) (k : String), lookupKey l₁ k = lookupKey l₂ k := by
  induction p with
  | nil => intro _ _; rfl
  | cons x p ih =>
    intro nd k
    have nd' : (recKeys _).Nodup := (List.nodup_cons.mp (by simpa [recKeys] using nd)).2
    simp only [lookupKey, List.lookup]
    cases k == x.1
    · exact ih nd' k
    · rfl
  | swap x y t =>
    intro nd k
    have hyx : y.1 ≠ x.1 := by
      simp only [recKeys, List.map_cons, List.nodup_cons, List.mem_cons] at nd
      exact fun h => nd.1 (Or.inl h)
    simp only [lookupKey, List.lookup]
    have hxy : (x.1 == y.1) = false := by simp [Ne.symm hyx]
    have hyxb : (y.1 == x.1) = false := by simp [hyx]
    by_cases hky : k = y.1 <;> by_cases hkx : k = x.1
    · exact absurd (hky ▸ hkx : y.1 = x.1) hyx
    · have h1 : (k == y.1) = true := by simp [hky]
      have h2 : (k == x.1) = false := by simp [hkx]
      simp [h1, h2, hyxb]
    · have h1 : (k == y.1) = false := by simp [hky]
      have h2 : (k == x.1) = true := by simp [hkx]
      simp [h1, h2, hxy]
    · have h1 : (k == y.1) = false := by simp [hky]
      have h2 : (k == x.1) = false := by simp [hkx]
      simp [h1, h2]
  | trans p₁ p₂ ih₁ ih₂ =>
    intro nd k
    have nd₂ : (recKeys _).Nodup := ((p₁.map Prod.fst).nodup_iff).mp nd
    exact (ih₁ nd k).trans (ih₂ nd₂ k)

theorem toFinset_eq_of_perm {l₁ l₂ : List String} (p : l₁.Perm l₂) :
    l₁.toFinset = l₂.toFinset := by
  ext x
  simp only [List.mem_toFinset]
  exact p.mem_iff

/-- Membership-congruence for `List.all`. -/
theorem all_congr_mem {l₁ l₂ : List String} (pf : ∀ x, x ∈ l₁ ↔ x ∈ l₂)
    (p q : String → Bool) (hpq : ∀ x, p x = q x) : l₁.all p = l₂.all q := by
  rw [Bool.eq_iff_iff, List.all_eq_true, List.all_eq_true]
  constructor
  · intro h x hx
    rw [← hpq x]
    exact h x ((pf x).mpr hx)
  · intro h x hx
    rw [hpq x]
    exact h x ((pf x).mp hx)

theorem dicts_equal_refl (a : Record) : dicts_equal a a = true := by
  unfold dicts_equal
  simp [valEqTol_refl]

theorem dicts_equal_symm (a b : Record) : dicts_equal a b = dicts_equal b a := by
  unfold dicts_equal
  by_cases h : (recKeys a).toFinset = (recKeys b).toFinset
  · rw [if_neg (by simp [h]), if_neg (by simp [h.symm])]
    refine all_congr_mem (fun x => ?_) _ _ (fun x => valEqTol_symm _ _)
    rw [← List.mem_toFinset, ← List.mem_toFinset (l := recKeys b), h]
  · rw [if_pos (by simpa using h), if_pos (by simpa using fun e => h e.symm)]

theorem dicts_equal_perm_left {a a' : Record} (b : Record) (nd : (recKeys a).Nodup)
    (p : a.Perm a') : dicts_equal a b = dicts_equal a' b := by
  have hkeys : (recKeys a).Perm (recKeys a') := p.map Prod.fst
  have hfin : (recKeys a).toFinset = (recKeys a').toFinset := toFinset_eq_of_perm hkeys
  have hget : ∀ k, pyGet a k = pyGet a' k := fun k => by
    unfold pyGet; rw [lookupKey_perm p nd k]
  unfold dicts_equal
  rw [hfin]
  by_cases h : (recKeys a').toFinset = (recKeys b).toFinset
  · rw [if_neg (by simp [h]), if_neg (by simp [h])]
    exact all_congr_mem (fun x => hkeys.mem_iff) _ _ (fun x => by rw [hget x])
  · rw [if_pos (by simpa using h), if_pos (by simpa using h)]

theorem dicts_equal_iff (a b : Record) :
    dicts_equal a b = true ↔
      ((recKeys a).toFinset = (recKeys b).toFinset ∧
        ∀ k ∈ recKeys a, valEqTol (pyGet a k) (pyGet b k) = true) := by
  unfold dicts_equal
  by_cases h : (recKeys a).toFinset = (recKeys b).toFinset
  · rw [if_neg (by simp [h]), List.all_eq_true]
    exact ⟨fun hv => ⟨h, hv⟩, fun ⟨_, hv⟩ => hv⟩
  · rw [if_pos (by simpa using h)]
    simp only [Bool.false_eq_true, false_iff, not_and]
    exact fun hf => absurd hf h

theorem exactTargetPass_eq_find (f c : Record) (ts : List String) :
    exactTargetPass f c ts = (ts.find? (exactQual f c)).map (exactResult f c) := by
  induction ts with
  | nil => rfl
  | cons t rest ih =>
    show (match lookupKey f t, lookupKey c t with
      | some fv, some cv =>
        if pyEq fv cv then exactTargetPass f c rest else some ⟨t, fv, cv⟩
      | _, _ => exactTargetPass f c rest) = _
    cases hf : lookupKey f t <;> cases hc : lookupKey c t <;>
      simp only [exactQual, hf, hc]
    · rw [List.find?_cons_of_neg _ (by simp [exactQual, hf, hc])]; exact ih
    · rw [List.find?_cons_of_neg _ (by simp [exactQual, hf, hc])]; exact ih
    · rw [List.find?_cons_of_neg _ (by simp [exactQual, hf, hc])]; exact ih
    · rename_i fv cv
      by_cases hEq : pyEq fv cv = true
      · rw [if_pos hEq, List.find?_cons_of_neg _ (by simp [exactQual, hf, hc, hEq])]
        exact ih
      · rw [if_neg hEq, List.find?_cons_of_pos _
          (by simp [exactQual, hf, hc]; exact Bool.not_eq_true _ ▸ hEq)]
        simp [exactResult, pyGet, hf, hc]

theorem ciTargetPass_eq_find (f c : Record) (ts : List String) :
    ciTargetPass f c ts = (ts.find? (ciQual f c)).map (ciResult f c) := by
  induction ts with
  | nil => rfl
  | cons t rest ih =>
    show (match lastKeyWithLower (recKeys f) (lowerStr t) with
      | some orig =>
        match lookupKey f orig, lookupKey c orig with
        | some fv, some cv =>
          if pyEq fv cv then ciTargetPass f c rest else some ⟨orig, fv, cv⟩
        | _, _ => ciTargetPass f c rest
      | none => ciTargetPass f c rest) = _
    cases hlk : lastKeyWithLower (recKeys f) (lowerStr t)
    · rw [List.find?_cons_of_neg _ (by simp [ciQual, hlk])]; exact ih
    · rename_i orig
      cases hf : lookupKey f orig <;> cases hc : lookupKey c orig <;>
        simp only [hf, hc]
      · rw [List.find?_cons_of_neg _ (by simp [ciQual, hlk, hf, hc])]; exact ih
      · rw [List.find?_cons_of_neg _ (by simp [ciQual, hlk, hf, hc])]; exact ih
      · rw [List.find?_cons_of_neg _ (by simp [ciQual, hlk, hf, hc])]; exact ih
      · rename_i fv cv
        by_cases hEq : pyEq fv cv = true
        · rw [if_pos hEq, List.find?_cons_of_neg _ (by simp [ciQual, hlk, hf, hc, hEq])]
          exact ih
        · rw [if_neg hEq, List.find?_cons_of_pos _
            (by simp [ciQual, hlk, hf, hc]; exact Bool.not_eq_true _ ▸ hEq)]
          simp [ciResult, pyGet, hlk, hf, hc]

theorem lookups_of_exactQual {f c : Record} {t : String} (h : exactQual f c t = true) :
    lookupKey f t = some (pyGet f t) ∧ lookupKey c t = some (pyGet c t) ∧
      pyEq (pyGet f t) (pyGet c t) = false := by
  unfold exactQual at h
  cases hf : lookupKey f t <;> rw [hf] at h
  · simp at h
  · cases hc : lookupKey c t <;> rw [hc] at h
    · simp at h
    · simp only [Bool.not_eq_true'] at h
      exact ⟨by simp [pyGet, hf], by simp [pyGet, hc], by simp [pyGet, hf, hc, h]⟩

theorem lookups_of_ciQual {f c : Record} {t : String} (h : ciQual f c t = true) :
    lookupKey f ((lastKeyWithLower (recKeys f) (lowerStr t)).getD t) =
        some (pyGet f ((lastKeyWithLower (recKeys f) (lowerStr t)).getD t)) ∧
      lookupKey c ((lastKeyWithLower (recKeys f) (lowerStr t)).getD t) =
        some (pyGet c ((lastKeyWithLower (recKeys f) (lowerStr t)).getD t)) ∧
      pyEq (pyGet f ((lastKeyWithLower (recKeys f) (lowerStr t)).getD t))
        (pyGet c ((lastKeyWithLower (recKeys f) (lowerStr t)).getD t)) = false := by
  unfold ciQual at h
  split at h
  · rename_i orig hlk
    rw [hlk]
    simp only [Option.getD_some]
    split at h
    · rename_i fv cv hf hc
      simp only [Bool.not_eq_true'] at h
      exact ⟨by simp [pyGet, hf], by simp [pyGet, hc], by simp [pyGet, hf, hc, h]⟩
    · simp at h
  · simp at h

/-- C7: `extractTargetChange` equals a two-pass search over the fixed candidate list
`(target, label, prediction, y, Survived, Income, MedHouseVal, income, survived,
medhouseval)`: the exact pass returns the first candidate present (exactly) in both
records with differing values, the case-insensitive pass runs only when the exact pass
found nothing; it returns none iff no candidate qualifies in either pass, and a returned
change always names a key present in both records whose values differ (so a candidate
present in both with equal values is skipped, never returned). -/
theorem C7_extract_target_change (f c : Record) :
    (extract_target_change f c =
        (((target_names.find? (exactQual f c)).map (exactResult f c)).or
          ((target_names.find? (ciQual f c)).map (ciResult f c)))) ∧
    (extract_target_change f c = none ↔
      ∀ t ∈ target_names, exactQual f c t = false ∧ ciQual f c t = false) ∧
    (∀ tc, extract_target_change f c = some tc →
      lookupKey f tc.varName = some tc.factual ∧
      lookupKey c tc.varName = some tc.counterfactual ∧
      pyEq tc.factual tc.counterfactual = false) := by
  have hor : extract_target_change f c =
      (((target_names.find? (exactQual f c)).map (exactResult f c)).or
        ((target_names.find? (ciQual f c)).map (ciResult f c))) := by
    unfold extract_target_change
    rw [exactTargetPass_eq_find, ciTargetPass_eq_find]
    cases target_names.find? (exactQual f c) <;> simp [Option.or]
  refine ⟨hor, ?_, ?_⟩
  · rw [hor, Option.or_eq_none, Option.map_eq_none', Option.map_eq_none',
      List.find?_eq_none, List.find?_eq_none]
    constructor
    · intro ⟨hex, hci⟩ t ht
      exact ⟨Bool.not_eq_true _ ▸ hex t ht, Bool.not_eq_true _ ▸ hci t ht⟩
    · intro hall
      refine ⟨fun t ht => ?_, fun t ht => ?_⟩
      · simp [(hall t ht).1]
      · simp [(hall t ht).2]
  · intro tc htc
    rw [hor] at htc
    rcases Option.or_eq_some.mp htc with h1 | ⟨_, h2⟩
    · rcases Option.map_eq_some'.mp h1 with ⟨t, hfind, rfl⟩
      exact lookups_of_exactQual (List.find?_some hfind)
    · rcases Option.map_eq_some'.mp h2 with ⟨t, hfind, rfl⟩
      exact lookups_of_ciQual (List.find?_some hfind)

/-- C7 witness: for factual `{Survived: 0}`, counterfactual `{Survived: 1}` the
returned target change names `Survived`, present in both records with differing
values. -/
theorem C7_witness :
    lookupKey [("Survived", PyVal.vInt 0)] "Survived" = some (PyVal.vInt 0) ∧
    lookupKey [("Survived", PyVal.vInt 1)] "Survived" = some (PyVal.vInt 1) ∧
    pyEq (PyVal.vInt 0) (PyVal.vInt 1) = false :=
  (C7_extract_target_change [("Survived", PyVal.vInt 0)] [("Survived", PyVal.vInt 1)]).2.2
    ⟨"Survived", PyVal.vInt 0, PyVal.vInt 1⟩ (by decide)

/-- C1 counterexample: the claim asserts `computeFeatureChanges({x:1.0000000001}, {x:1.0})`
is empty (numeric comparison with absolute tolerance 1e-9).  The code compares with plain
Python `!=`, so the pair — whose difference is only 1e-10 — yields one change entry. -/
theorem C1_counterexample :
    calculate_feature_changes [("x", .vFloat (10000000001/10000000000))] [("x", .vFloat 1)] =
        [("x", ⟨.vFloat (10000000001/10000000000), .vFloat 1⟩)] ∧
      calculate_feature_changes [("x", .vFloat (10000000001/10000000000))] [("x", .vFloat 1)] ≠
        [] := by
  have hne : pyEq (.vFloat (10000000001/10000000000)) (.vFloat 1) = false := by
    simp only [pyEq, decide_eq_false_iff_not]
    norm_num
  have heq : calculate_feature_changes [("x", .vFloat (10000000001/10000000000))]
      [("x", .vFloat 1)] = [("x", ⟨.vFloat (10000000001/10000000000), .vFloat 1⟩)] := by
    unfold calculate_feature_changes recKeys
    simp [List.dedup_cons_of_mem, List.filterMap_cons, pyGet, lookupKey, List.lookup, hne]
  exact ⟨heq, by rw [heq]; exact List.cons_ne_nil _ _⟩

/-- C1 (amended): `computeFeatureChanges` contains a key `k` iff `k` occurs in either
record and the two values (missing treated as `None`) are unequal under Python `==` —
numeric equality across int/float with no tolerance, exact equality otherwise; the entry
stores the two values.  `computeFeatureChanges(a, a)` is empty, and both
`computeFeatureChanges({x:1.0000000001}, {x:1.0})` and
`computeFeatureChanges({x:1.01}, {x:1.0})` have exactly one entry. -/
theorem C1_feature_changes_spec (f c : Record) :
    (∀ k ch, (k, ch) ∈ calculate_feature_changes f c ↔
        ((k ∈ recKeys f ∨ k ∈ recKeys c) ∧ pyEq (pyGet f k) (pyGet c k) = false ∧
          ch = ⟨pyGet f k, pyGet c k⟩)) ∧
    calculate_feature_changes f f = [] ∧
    (calculate_feature_changes [("x", .vFloat (10000000001/10000000000))]
        [("x", .vFloat 1)]).length = 1 ∧
    (calculate_feature_changes [("x", .vFloat (101/100))] [("x", .vFloat 1)]).length = 1 := by
  have hne1 : pyEq (.vFloat (10000000001/10000000000)) (.vFloat 1) = false := by
    simp only [pyEq, decide_eq_false_iff_not]
    norm_num
  have hne2 : pyEq (.vFloat (101/100)) (.vFloat 1) = false := by
    simp only [pyEq, decide_eq_false_iff_not]
    norm_num
  refine ⟨mem_calculate_feature_changes f c, calculate_feature_changes_self f, ?_, ?_⟩ <;>
    unfold calculate_feature_changes recKeys <;>
    simp [List.dedup_cons_of_mem, List.filterMap_cons, pyGet, lookupKey, List.lookup, hne1, hne2]

/-- C8: `recordsEqual` (`_dicts_equal`) is reflexive, symmetric, insensitive to key
ordering, and holds iff the two records have the same key set and every value pair
satisfies the tolerant-numeric / otherwise-exact equality rule. -/
theorem C8_records_equal :
    (∀ a, dicts_equal a a = true) ∧
    (∀ a b, dicts_equal a b = dicts_equal b a) ∧
    (∀ a a' b, (recKeys a).Nodup → a.Perm a' → dicts_equal a b = dicts_equal a' b) ∧
    (∀ a b, dicts_equal a b = true ↔
      ((recKeys a).toFinset = (recKeys b).toFinset ∧
        ∀ k ∈ recKeys a, valEqTol (pyGet a k) (pyGet b k) = true)) :=
  ⟨dicts_equal_refl, dicts_equal_symm,
    fun _ _ b nd p => dicts_equal_perm_left b nd p, dicts_equal_iff⟩

/-- C8 witness: key-order insensitivity applied to two concrete two-key records. -/
theorem C8_records_equal_witness :
    dicts_equal [("a", .vInt 1), ("b", .vStr "x")] [("b", .vStr "x"), ("a", .vInt 1)] =
      dicts_equal [("b", .vStr "x"), ("a", .vInt 1)] [("b", .vStr "x"), ("a", .vInt 1)] :=
  C8_records_equal.2.2.1 [("a", .vInt 1), ("b", .vStr "x")]
    [("b", .vStr "x"), ("a", .vInt 1)] [("b", .vStr "x"), ("a", .vInt 1)]
    (by decide) (List.Perm.swap _ _ _)

theorem roundHalfEven_intCast (n : ℤ) : roundHalfEven (n : ℚ) = n := by
  unfold roundHalfEven
  rw [Int.floor_intCast]
  norm_num

theorem round3_one : round3 1 = 1 := by
  have h : (1 : ℚ) * 1000 = ((1000 : ℤ) : ℚ) := by norm_num
  rw [round3, h, roundHalfEven_intCast]
  norm_num

theorem round3_zero : round3 0 = 0 := by
  have h : (0 : ℚ) * 1000 = ((0 : ℤ) : ℚ) := by norm_num
  rw [round3, h, roundHalfEven_intCast]
  norm_num

theorem compute_metrics_pff (pj : JsonObj) (gt : List (String × FeatureChange))
    (gtT : Option TargetChange) (f c : Record) :
    (compute_metrics (some pj) gt gtT f c).pff =
      if (groundTruthKeys gt).card = 0 then decide ((extractedKeys pj).card = 0)
      else decide ((groundTruthKeys gt ∩ extractedKeys pj) = groundTruthKeys gt) &&
        decide (extractedKeys pj = groundTruthKeys gt) := by
  unfold compute_metrics
  by_cases h : (groundTruthKeys gt).card = 0 <;> simp [h]

theorem compute_metrics_avg (pj : JsonObj) (gt : List (String × FeatureChange))
    (gtT : Option TargetChange) (f c : Record) :
    (compute_metrics (some pj) gt gtT f c).avg_ff =
      some (round3 (if (groundTruthKeys gt).card = 0 then
        (if (extractedKeys pj).card = 0 then (1 : ℚ) else 0)
        else ((groundTruthKeys gt ∩ extractedKeys pj).card : ℚ) /
          ((groundTruthKeys gt).card : ℚ))) := by
  unfold compute_metrics
  by_cases h : (groundTruthKeys gt).card = 0 <;> simp [h]

theorem compute_metrics_tf (pj : JsonObj) (gt : List (String × FeatureChange))
    (gtT : Option TargetChange) (f c : Record) :
    (compute_metrics (some pj) gt gtT f c).tf = tfValue pj gtT := by
  unfold compute_metrics
  by_cases h : (groundTruthKeys gt).card = 0 <;> simp [h]

theorem targetMatchTF_iff (gt : TargetChange) (pt : Json) :
    targetMatchTF gt pt = true ↔
      ∃ tfields, pt = .jObj tfields ∧ tfields ≠ [] ∧
        strNormTF (pyValStr gt.factual) =
          strNormTF (jsonStr ((jlookup tfields "factual").getD .jNull)) ∧
        strNormTF (pyValStr gt.counterfactual) =
          strNormTF (jsonStr ((jlookup tfields "counterfactual").getD .jNull)) := by
  cases pt <;> simp [targetMatchTF]

theorem noTargetTF_iff (pt : Json) :
    noTargetTF pt = true ↔ ∀ tfields, pt = .jObj tfields → tfields = [] := by
  cases pt <;>
    simp [noTargetTF, jsonTruthy, isJsonDict, jsonLen, List.isEmpty_iff,
      List.length_eq_zero]

/-- C6: when extraction produced no result, the metrics computation returns exactly
`{json_parsing_success: false, pff: false, tf: false, avg_ff: none}` and performs no
further comparison; being a total function of its inputs, it propagates no error. -/
theorem C6_parse_failure_metrics (gt : List (String × FeatureChange))
    (gtT : Option TargetChange) (f c : Record) :
    compute_metrics none gt gtT f c =
      ⟨false, false, false, none⟩ :=
  rfl

/-- C2: with lower-cased trimmed key sets on both sides — if the ground-truth key set
is empty, `avg_ff` is 1.0 for an empty extracted key set and 0.0 otherwise; if it is
non-empty, `avg_ff` is the ratio of captured ground-truth keys rounded to 3 decimals;
and `pff` holds iff the two key sets are exactly equal.  For ground truth
`{age, income}` and extracted `{age, income, extra}`, `pff` is false while `avg_ff`
is 1.0. -/
theorem C2_feature_field_metrics (pj : JsonObj) (gt : List (String × FeatureChange))
    (gtT : Option TargetChange) (f c : Record) :
    (groundTruthKeys gt = ∅ →
      (compute_metrics (some pj) gt gtT f c).avg_ff =
        some (if extractedKeys pj = ∅ then 1 else 0)) ∧
    (groundTruthKeys gt ≠ ∅ →
      (compute_metrics (some pj) gt gtT f c).avg_ff =
        some (round3 (((groundTruthKeys gt ∩ extractedKeys pj).card : ℚ) /
          ((groundTruthKeys gt).card : ℚ)))) ∧
    ((compute_metrics (some pj) gt gtT f c).pff =
      decide (extractedKeys pj = groundTruthKeys gt)) ∧
    (compute_metrics
        (some [("feature_changes", Json.jObj
          [("age", .jObj []), ("income", .jObj []), ("extra", .jObj [])])])
        [("age", ⟨.vInt 30, .vInt 60⟩), ("income", ⟨.vStr "low", .vStr "high"⟩)]
        none [] []).pff = false ∧
    (compute_metrics
        (some [("feature_changes", Json.jObj
          [("age", .jObj []), ("income", .jObj []), ("extra", .jObj [])])])
        [("age", ⟨.vInt 30, .vInt 60⟩), ("income", ⟨.vStr "low", .vStr "high"⟩)]
        none [] []).avg_ff = some 1 := by
  refine ⟨?_, ?_, ?_, ?_, ?_⟩
  · intro hG
    rw [compute_metrics_avg, if_pos (by rw [hG]; exact Finset.card_empty)]
    by_cases hP : extractedKeys pj = ∅
    · rw [if_pos (by rw [hP]; exact Finset.card_empty), if_pos hP, round3_one]
    · rw [if_neg (fun hc => hP (Finset.card_eq_zero.mp hc)), if_neg hP, round3_zero]
  · intro hG
    rw [compute_metrics_avg,
      if_neg (fun hc => hG (Finset.card_eq_zero.mp hc))]
  · rw [compute_metrics_pff]
    by_cases hc0 : (groundTruthKeys gt).card = 0
    · rw [if_pos hc0]
      rw [Finset.card_eq_zero] at hc0
      rw [decide_eq_decide, hc0, Finset.card_eq_zero]
    · rw [if_neg hc0]
      by_cases hpg : extractedKeys pj = groundTruthKeys gt
      · rw [hpg]
        simp [Finset.inter_self]
      · simp [hpg]
  · rw [compute_metrics_pff]
    rw [if_neg (by decide)]
    decide
  · rw [compute_metrics_avg]
    rw [if_neg (by decide)]
    rw [show ((groundTruthKeys
        [("age", ⟨.vInt 30, .vInt 60⟩), ("income", ⟨.vStr "low", .vStr "high"⟩)] ∩
        extractedKeys [("feature_changes", Json.jObj
          [("age", .jObj []), ("income", .jObj []), ("extra", .jObj [])])]).card) = 2
      from by decide]
    rw [show (groundTruthKeys
        [("age", ⟨.vInt 30, .vInt 60⟩), ("income", ⟨.vStr "low", .vStr "high"⟩)]).card = 2
      from by decide]
    rw [show ((2 : ℕ) : ℚ) / ((2 : ℕ) : ℚ) = 1 from by norm_num, round3_one]

/-- C2 witness: the empty-ground-truth branch applied to the empty extraction
result. -/
theorem C2_witness :
    (compute_metrics (some []) [] none [] []).avg_ff =
      some (if extractedKeys ([] : JsonObj) = ∅ then 1 else 0) :=
  (C2_feature_field_metrics [] [] none [] []).1 (by decide)

/-- C3 counterexample: the claim states that with no named ground-truth target, `tf`
is true iff the extracted `target_variable_change` is absent or empty; the code also
returns `tf = true` for the present, truthy (non-empty), non-mapping value `"yes"`. -/
theorem C3_counterexample :
    (compute_metrics (some [("target_variable_change", Json.jStr "yes")])
        [] none [] []).tf = true ∧
      jsonTruthy (Json.jStr "yes") = true ∧
      isJsonDict (Json.jStr "yes") = false := by
  refine ⟨?_, by decide, by decide⟩
  rw [compute_metrics_tf]
  decide

/-- C3 (amended): when the ground truth has a named target, `tf` is true iff the
extracted `target_variable_change` is a non-empty mapping whose stringified, trimmed,
lower-cased `factual` and `counterfactual` values equal the ground truth's (so
ground-truth numbers 58 and 86 match extracted strings "58" and "86"); when the
ground truth has no named target, `tf` is true iff the extracted
`target_variable_change` is absent, empty, or not a mapping. -/
theorem C3_target_field_metric (pj : JsonObj) (gt : List (String × FeatureChange))
    (tc : TargetChange) (f c : Record) :
    (tc.varName ≠ "" →
      ((compute_metrics (some pj) gt (some tc) f c).tf = true ↔
        ∃ tfields,
          (jlookup pj "target_variable_change").getD (.jObj []) = .jObj tfields ∧
          tfields ≠ [] ∧
          strNormTF (pyValStr tc.factual) =
            strNormTF (jsonStr ((jlookup tfields "factual").getD .jNull)) ∧
          strNormTF (pyValStr tc.counterfactual) =
            strNormTF (jsonStr ((jlookup tfields "counterfactual").getD .jNull)))) ∧
    ((compute_metrics (some pj) gt none f c).tf = true ↔
      (∀ tfields,
        (jlookup pj "target_variable_change").getD (.jObj []) = .jObj tfields →
        tfields = [])) ∧
    (compute_metrics (some [("target_variable_change",
        Json.jObj [("factual", Json.jStr "58"), ("counterfactual", Json.jStr "86")])])
        [] (some ⟨"age", PyVal.vInt 58, PyVal.vInt 86⟩) [] []).tf = true := by
  refine ⟨?_, ?_, ?_⟩
  · intro hvar
    rw [compute_metrics_tf]
    have htv : tfValue pj (some tc) =
        targetMatchTF tc ((jlookup pj "target_variable_change").getD (.jObj [])) := by
      simp [tfValue, hvar]
    rw [htv]
    exact targetMatchTF_iff tc _
  · rw [compute_metrics_tf]
    have htv : tfValue pj none =
        noTargetTF ((jlookup pj "target_variable_change").getD (.jObj [])) := by
      simp [tfValue]
    rw [htv]
    exact noTargetTF_iff _
  · rw [compute_metrics_tf]
    decide

/-- C3 witness: the named-target branch applied to ground truth `(58, 86)` with
extracted strings `("58", "86")`. -/
theorem C3_witness :
    (compute_metrics (some [("target_variable_change",
        Json.jObj [("factual", Json.jStr "58"), ("counterfactual", Json.jStr "86")])])
        [("age", ⟨PyVal.vInt 58, PyVal.vInt 86⟩)]
        (some ⟨"age", PyVal.vInt 58, PyVal.vInt 86⟩) [] []).tf = true :=
  ((C3_target_field_metric [("target_variable_change",
      Json.jObj [("factual", Json.jStr "58"), ("counterfactual", Json.jStr "86")])]
      [("age", ⟨PyVal.vInt 58, PyVal.vInt 86⟩)]
      ⟨"age", PyVal.vInt 58, PyVal.vInt 86⟩ [] []).1 (by decide)).mpr
    ⟨[("factual", Json.jStr "58"), ("counterfactual", Json.jStr "86")], rfl,
      List.cons_ne_nil _ _, by decide, by decide⟩

theorem parse_json_response_eq_tiered (text : String) :
    parse_json_response text = tieredSelect (extractionCandidates text) := by
  unfold parse_json_response tieredSelect
  by_cases h : text = ""
  · subst h
    rfl
  · rw [if_neg (by simpa using h)]
    dsimp only
    split
    · rename_i parsed heq
      rw [heq]
      simp [Option.or]
    · rename_i heq
      rw [heq]
      simp only [Option.or]
      split
      · rename_i parsed heq2
        rw [heq2]
      · rename_i heq2
        rw [heq2]

theorem tryLoad_none_tierA {cand : String} (h : try_load_json_snippet cand = none) :
    tierA cand = none := by
  unfold tierA
  rw [h]

theorem tryLoad_none_tierB {cand : String} (h : try_load_json_snippet cand = none) :
    tierB cand = none := by
  unfold tierB
  rw [h]

theorem tieredSelect_eq_none_iff (cands : List String) :
    tieredSelect cands = none ↔
      ∀ cand ∈ cands, try_load_json_snippet cand = none := by
  unfold tieredSelect
  rw [Option.or_eq_none, Option.or_eq_none]
  constructor
  · rintro ⟨-, -, hC⟩ cand hc
    exact (List.findSome?_eq_none_iff.mp hC) cand (List.mem_reverse.mpr hc)
  · intro hall
    refine ⟨?_, ?_, ?_⟩ <;> rw [List.findSome?_eq_none_iff] <;> intro cand hc
    · exact tryLoad_none_tierA (hall cand (List.mem_reverse.mp hc))
    · exact tryLoad_none_tierB (hall cand (List.mem_reverse.mp hc))
    · exact hall cand (List.mem_reverse.mp hc)

/-- C5: the extractor is a total function — on any input it returns a parsed mapping
or none, and it returns none exactly when no collected candidate parses to a mapping
(absence of a result is its only failure signal).  In particular "no json here" and
text with an unmatched opening brace yield none. -/
theorem C5_extractor_never_raises :
    (∀ text : String, parse_json_response text = none ↔
      ∀ cand ∈ extractionCandidates text, try_load_json_snippet cand = none) ∧
    parse_json_response "no json here" = none ∧
    parse_json_response "oops \x7b unbalanced" = none := by
  refine ⟨fun text => ?_, ?_, ?_⟩
  · rw [parse_json_response_eq_tiered]
    exact tieredSelect_eq_none_iff _
  · exact Option.isNone_iff_eq_none.mp (by decide)
  · exact Option.isNone_iff_eq_none.mp (by decide)

/-- C5 witness: the characterization applied to a concrete brace-free text. -/
theorem C5_witness : parse_json_response "x" = none :=
  (C5_extractor_never_raises.1 "x").mpr (by
    intro cand hc
    rw [show extractionCandidates "x" = [] from by decide] at hc
    exact absurd hc (List.not_mem_nil _))

/-- C4 counterexample: in
`{"feature_changes": 1} ```json¶{"feature_changes": "}ok"}¶``` ` the fenced block
occurs later in the text than the plain balanced-brace span and also parses to a
tier-B mapping (shown by the second conjunct and the candidate list), yet the
extractor returns the earlier span's mapping — fenced captures precede brace spans
in the candidate list, so the reverse scan prefers the last brace span over any
fenced block, refuting "the last-occurring qualifying candidate wins". -/
theorem C4_counterexample :
    (parse_json_response
        "\x7b\"feature_changes\": 1\x7d ```json\n\x7b\"feature_changes\": \"\x7dok\"\x7d\n```").map
        jsonReprObj = some "\x7b'feature_changes': 1\x7d" ∧
    (try_load_json_snippet "\x7b\"feature_changes\": \"\x7dok\"\x7d").map jsonReprObj =
      some "\x7b'feature_changes': '\x7dok'\x7d" ∧
    extractionCandidates
        "\x7b\"feature_changes\": 1\x7d ```json\n\x7b\"feature_changes\": \"\x7dok\"\x7d\n```" =
      ["\x7b\"feature_changes\": \"\x7dok\"\x7d", "\x7b\"feature_changes\": 1\x7d",
        "\x7b\"feature_changes\": \"\x7d"] ∧
    ("\x7b'feature_changes': 1\x7d" : String) ≠ "\x7b'feature_changes': '\x7dok'\x7d" := by
  have hc : extractionCandidates
      "\x7b\"feature_changes\": 1\x7d ```json\n\x7b\"feature_changes\": \"\x7dok\"\x7d\n```" =
      ["\x7b\"feature_changes\": \"\x7dok\"\x7d", "\x7b\"feature_changes\": 1\x7d",
        "\x7b\"feature_changes\": \"\x7d"] := by decide
  refine ⟨?_, by decide, hc, by decide⟩
  rw [parse_json_response_eq_tiered, hc]
  decide

/-- C4 (amended): the extractor equals the tiered selection over its candidate list
— fenced ```json captures in text order followed by balanced-brace spans in text
order — with each tier scanning that list in reverse, so the last-collected
qualifying candidate of a tier wins (among brace spans this is the last in text
order, and a qualifying fenced block is reached only after every later-listed brace
span of the tier fails); tier A requires all four keys feature_changes, reasoning,
features_importance_ranking, explanation, tier B requires feature_changes, tier C
any parsed mapping.  In particular, for text whose two fenced JSON blocks both
qualify for the same tier, the second (later) block is returned. -/
theorem C4_tiered_selection :
    (∀ text : String,
      parse_json_response text = tieredSelect (extractionCandidates text)) ∧
    (parse_json_response
        "```json\n\x7b\"a\": 1\x7d\n```\nx\n```json\n\x7b\"a\": 2\x7d\n```").map
        jsonReprObj = some "\x7b'a': 2\x7d" := by
  refine ⟨parse_json_response_eq_tiered, ?_⟩
  have hc : extractionCandidates "```json\n\x7b\"a\": 1\x7d\n```\nx\n```json\n\x7b\"a\": 2\x7d\n```" =
      ["\x7b\"a\": 1\x7d", "\x7b\"a\": 2\x7d", "\x7b\"a\": 1\x7d", "\x7b\"a\": 2\x7d"] := by
    decide
  rw [parse_json_response_eq_tiered, hc]
  decide

/-- C10: for every factual/counterfactual pair (and any state of the generation
collaborator), `generate_explanation` with model "demo" returns the synthetic record
— before any generation work — whose status is "demo" and whose metrics are the
fixed constants `{json_parsing_success: true, pff: true, tf: true, avg_ff: 1.0}`,
independent of the input pair and not produced by the metrics engine. -/
theorem C10_demo_mode (gen : GenOracle) (f c : Record) :
    generate_explanation gen "demo" f c = .ok (generate_dummy_explanation f c) ∧
    (generate_dummy_explanation f c).status = "demo" ∧
    (generate_dummy_explanation f c).metrics = some ⟨true, true, true, some 1⟩ :=
  ⟨rfl, rfl, rfl⟩

theorem draftIndices_stream (numDrafts : Nat) (gen : RefinementOracle)
    (h : gen.available = true) :
    draftIndices (explain_stream_events numDrafts gen) = List.range numDrafts := by
  unfold explain_stream_events generate_self_refinement draftIndices
  rw [if_pos (by rw [h])]
  rw [List.filterMap_append, List.filterMap_map]
  simp [Function.comp_def]

/-- C9 counterexample: for a request of 1 draft whose generation collaborator is
unavailable before any draft starts, the stream is the single error event with zero
draft_update events — not "exactly N draft_update events followed by one
terminal". -/
theorem C9_counterexample :
    explain_stream_events 1 ⟨false, fun _ => true⟩ =
        [.error "generation collaborator unavailable"] ∧
    (draftIndices (explain_stream_events 1 ⟨false, fun _ => true⟩)).length = 0 :=
  ⟨rfl, rfl⟩

/-- C9 (amended): when the batch proceeds, the stream is exactly N draft_update
events in strictly increasing draft-index order (indices 0..N-1) followed by one
complete event; when the batch cannot proceed, it is a single error event and no
draft_update; in every case there is exactly one terminal event, it comes last, and
no draft_update follows it. -/
theorem C9_event_stream (numDrafts : Nat) (gen : RefinementOracle) :
    (gen.available = true →
      explain_stream_events numDrafts gen =
        ((List.range numDrafts).map fun i => .draft_update i (gen.draftSucceeds i)) ++
          [.complete] ∧
      draftIndices (explain_stream_events numDrafts gen) = List.range numDrafts) ∧
    (gen.available = false →
      explain_stream_events numDrafts gen =
        [.error "generation collaborator unavailable"]) ∧
    ((explain_stream_events numDrafts gen).filter isTerminal).length = 1 ∧
    (∃ pre t, explain_stream_events numDrafts gen = pre ++ [t] ∧
      isTerminal t = true ∧ ∀ e ∈ pre, isTerminal e = false) ∧
    List.Pairwise (· < ·) (draftIndices (explain_stream_events numDrafts gen)) := by
  by_cases h : gen.available = true
  · have hev : explain_stream_events numDrafts gen =
        ((List.range numDrafts).map fun i => .draft_update i (gen.draftSucceeds i)) ++
          [.complete] := by
      unfold explain_stream_events generate_self_refinement
      rw [if_pos (by rw [h])]
    refine ⟨fun _ => ⟨hev, draftIndices_stream numDrafts gen h⟩,
      fun hf => absurd h (by rw [hf]; exact Bool.false_ne_true), ?_, ?_, ?_⟩
    · rw [hev, List.filter_append, List.length_append]
      have h1 : List.filter isTerminal
          ((List.range numDrafts).map fun i => .draft_update i (gen.draftSucceeds i)) =
          [] := by
        rw [List.filter_eq_nil_iff]
        intro e he
        obtain ⟨i, -, rfl⟩ := List.mem_map.mp he
        simp [isTerminal]
      rw [h1]
      rfl
    · refine ⟨_, _, hev, rfl, ?_⟩
      intro e he
      obtain ⟨i, -, rfl⟩ := List.mem_map.mp he
      simp [isTerminal]
    · rw [draftIndices_stream numDrafts gen h]
      exact List.pairwise_lt_range numDrafts
  · rw [Bool.not_eq_true] at h
    have hev : explain_stream_events numDrafts gen =
        [.error "generation collaborator unavailable"] := by
      unfold explain_stream_events generate_self_refinement
      rw [if_neg (by rw [h]; exact Bool.false_ne_true)]
    refine ⟨fun ht => absurd ht (by rw [h]; exact Bool.false_ne_true),
      fun _ => hev, ?_, ?_, ?_⟩
    · rw [hev]; rfl
    · exact ⟨[], _, hev, rfl, by intro e he; exact absurd he (List.not_mem_nil e)⟩
    · rw [hev]
      exact List.Pairwise.nil

/-- C9 witness: a proceeding 2-draft batch yields draft updates 0 then 1 followed by
the complete event. -/
theorem C9_witness :
    explain_stream_events 2 ⟨true, fun _ => true⟩ =
      ((List.range 2).map fun i => .draft_update i true) ++ [.complete] ∧
    draftIndices (explain_stream_events 2 ⟨true, fun _ => true⟩) = List.range 2 :=
  (C9_event_stream 2 ⟨true, fun _ => true⟩).1 rfl

end XaiWebapp
